import Mathlib

/-!
Shallow embedding of the emotion-detector-js client library
(src/client.ts, src/errors.ts, src/types.ts) together with proofs about
validation, the request pipeline, the response transformer and the
constructor.

JavaScript strings are modelled as Lean `String` values, JS numbers that
the library only copies through as `Rat`, and `parseInt` producing `NaN`
via an explicit `JsNumber` type.  The HTTP transport is an oracle
argument: `analyze` and `analyzeBatch` receive a function from the
request they send to the transport outcome, which is exactly the
information `fetch` supplies to the surrounding code.
-/

/-- Default API base URL (client.ts). -/
def DEFAULT_BASE_URL : String := "https://itsKrish01-emotion-checker.hf.space"

/-- Default request timeout in milliseconds (client.ts). -/
def DEFAULT_TIMEOUT : Int := 30000

/-- Maximum words allowed per text (client.ts). -/
def MAX_WORDS_PER_TEXT : Nat := 100

/-- Maximum texts allowed in a batch request (client.ts). -/
def MAX_BATCH_SIZE : Nat := 10

/-- Characters matched by the JavaScript whitespace class and removed by
String.prototype.trim (the two sets coincide). -/
def isJSWhitespace (c : Char) : Bool :=
  c == '\t' || c == '\n' || c == '\x0b' || c == '\x0c' || c == '\r' || c == ' ' ||
  c == '\u00A0' || c == '\u1680' ||
  (0x2000 ≤ c.toNat && c.toNat ≤ 0x200A) ||
  c == '\u2028' || c == '\u2029' || c == '\u202F' || c == '\u205F' ||
  c == '\u3000' || c == '\uFEFF'

/-- String.prototype.trim on the character list of a string. -/
def jsTrimL (cs : List Char) : List Char :=
  ((cs.dropWhile isJSWhitespace).reverse.dropWhile isJSWhitespace).reverse

/-- String.prototype.trim. -/
def jsTrim (s : String) : String := ⟨jsTrimL s.data⟩

/-- Splitting a character list at every whitespace character.  After the
empty pieces are filtered out this coincides with the JavaScript split on
runs of whitespace used by countWords. -/
def splitOnWs : List Char → List (List Char)
  | [] => [[]]
  | c :: rest =>
    if isJSWhitespace c then [] :: splitOnWs rest
    else
      match splitOnWs rest with
      | t :: ts => (c :: t) :: ts
      | [] => [[c]]

/-- countWords (client.ts): trim, split on runs of whitespace, keep the
non-empty tokens, count them. -/
def countWords (text : String) : Nat :=
  ((splitOnWs (jsTrim text).data).filter (fun w => w.length > 0)).length

/-- EmotionScore (types.ts). -/
structure EmotionScore where
  emotion : String
  score : Rat
deriving DecidableEq

/-- ApiAnalyzeResponse: wire shape of a single analysis (types.ts). -/
structure ApiAnalyzeResponse where
  primary_emotion : String
  confidence : Rat
  all_emotions : List EmotionScore
deriving DecidableEq

/-- ApiBatchResponse: wire shape of a batch response (types.ts).  The
wire count is whatever number the server sends. -/
structure ApiBatchResponse where
  results : List ApiAnalyzeResponse
  count : Int
deriving DecidableEq

/-- EmotionResult (types.ts). -/
structure EmotionResult where
  primaryEmotion : String
  confidence : Rat
  allEmotions : List EmotionScore
deriving DecidableEq

/-- BatchEmotionResult (types.ts). -/
structure BatchEmotionResult where
  results : List EmotionResult
  count : Int
deriving DecidableEq

/-- transformResponse (client.ts): field-for-field renaming of the wire
shape into the public result shape. -/
def transformResponse (response : ApiAnalyzeResponse) : EmotionResult :=
  ⟨response.primary_emotion, response.confidence, response.all_emotions⟩

/-- A JavaScript value passed where the TypeScript signature says string:
an actual string, null or undefined, or some other non-string value
together with its truthiness. -/
inductive JSVal where
  | str (s : String)
  | nullish
  | otherVal (truthy : Bool)
deriving DecidableEq

/-- ValidationError payload (errors.ts): message and offending field. -/
structure ValidationError where
  message : String
  field : String
deriving DecidableEq

/-- validateText (client.ts).  The first check rejects every non-string
value and the empty string, which are exactly the inputs on which the
JavaScript condition involving truthiness and typeof fires. -/
def validateText (text : JSVal) : Except ValidationError Unit :=
  match text with
  | .nullish => .error ⟨"Text is required and must be a string", "text"⟩
  | .otherVal _ => .error ⟨"Text is required and must be a string", "text"⟩
  | .str s =>
    if s = "" then .error ⟨"Text is required and must be a string", "text"⟩
    else
      let trimmedText := jsTrim s
      if trimmedText.length = 0 then .error ⟨"Text cannot be empty", "text"⟩
      else
        let wordCount := countWords trimmedText
        if wordCount > MAX_WORDS_PER_TEXT then
          .error ⟨"Text exceeds maximum word limit. Got " ++ toString wordCount ++
            " words, maximum is " ++ toString MAX_WORDS_PER_TEXT, "text"⟩
        else .ok ()

/-- One iteration of the forEach body in validateBatchTexts (client.ts). -/
def validateBatchItem (index : Nat) (text : JSVal) : Except ValidationError Unit :=
  match text with
  | .nullish =>
    .error ⟨"Text at index " ++ toString index ++ " is required and must be a string", "texts"⟩
  | .otherVal _ =>
    .error ⟨"Text at index " ++ toString index ++ " is required and must be a string", "texts"⟩
  | .str s =>
    if s = "" then
      .error ⟨"Text at index " ++ toString index ++ " is required and must be a string", "texts"⟩
    else
      let trimmedText := jsTrim s
      if trimmedText.length = 0 then
        .error ⟨"Text at index " ++ toString index ++ " cannot be empty", "texts"⟩
      else
        let wordCount := countWords trimmedText
        if wordCount > MAX_WORDS_PER_TEXT then
          .error ⟨"Text at index " ++ toString index ++ " exceeds maximum word limit. Got " ++
            toString wordCount ++ " words, maximum is " ++ toString MAX_WORDS_PER_TEXT, "texts"⟩
        else .ok ()

/-- The forEach loop of validateBatchTexts: the first failing element
aborts the loop by throwing. -/
def validateEach : Nat → List JSVal → Except ValidationError Unit
  | _, [] => .ok ()
  | index, text :: rest =>
    match validateBatchItem index text with
    | .error e => .error e
    | .ok () => validateEach (index + 1) rest

/-- The argument of analyzeBatch as a JavaScript caller may supply it:
either not an array at all, or an array of arbitrary values. -/
inductive BatchInput where
  | notArray
  | arr (texts : List JSVal)

/-- validateBatchTexts (client.ts). -/
def validateBatchTexts (input : BatchInput) : Except ValidationError Unit :=
  match input with
  | .notArray => .error ⟨"Texts must be an array", "texts"⟩
  | .arr texts =>
    if texts.length = 0 then .error ⟨"At least one text is required", "texts"⟩
    else if texts.length > MAX_BATCH_SIZE then
      .error ⟨"Batch size exceeds maximum limit. Got " ++ toString texts.length ++
        " texts, maximum is " ++ toString MAX_BATCH_SIZE, "texts"⟩
    else validateEach 0 texts

/-- A JavaScript number as produced by parseInt: NaN or an integer. -/
inductive JsNumber where
  | nan
  | int (n : Int)
deriving DecidableEq

/-- Numeric value of a list of decimal digits. -/
def digitsVal (ds : List Char) : Nat :=
  ds.foldl (fun acc c => acc * 10 + (c.toNat - 48)) 0

/-- parseInt with radix 10: skip leading whitespace, take an optional
sign, then the longest prefix of decimal digits; NaN when that prefix is
empty. -/
def jsParseInt (s : String) : JsNumber :=
  let cs := s.data.dropWhile isJSWhitespace
  let signDigits : Bool × List Char :=
    match cs with
    | '-' :: rest => (true, rest)
    | '+' :: rest => (false, rest)
    | _ => (false, cs)
  let ds := signDigits.2.takeWhile (fun c => c.isDigit)
  if ds = [] then .nan
  else if signDigits.1 then .int (-(digitsVal ds : Int))
  else .int ((digitsVal ds : Int))

/-- The retryAfter field of a RateLimitError: undefined or a JS number. -/
inductive RetryAfterValue where
  | undef
  | num (v : JsNumber)
deriving DecidableEq

/-- The three optional message fields the error path reads from a parsed
JSON error body (ApiErrorResponse in types.ts).  Each is either absent or
a string value. -/
structure WireErrorBody where
  detail : Option String
  message : Option String
  error : Option String
deriving DecidableEq

/-- The error taxonomy of errors.ts as a tagged variant, carrying the
variant-specific fields of each class.  The cause of a NetworkError is
the name and message of the underlying Error when there is one. -/
inductive EmotionAnalyzerError where
  | validation (message : String) (field : String)
  | rateLimit (message : String) (retryAfter : RetryAfterValue)
  | api (message : String) (statusCode : Nat) (responseBody : String)
  | timeout (timeoutMs : Int)
  | network (message : String) (cause : Option (String × String))
deriving DecidableEq

/-- A value caught by the try/catch in request (client.ts): one of the
library's own errors, a JavaScript Error with its name, message and
whether it is a TypeError, or a thrown non-Error value. -/
inductive CaughtError where
  | analyzer (e : EmotionAnalyzerError)
  | jsError (name : String) (message : String) (isTypeError : Bool)
  | nonError
deriving DecidableEq

/-- The catch block of request (client.ts): rethrow the library's own
errors, turn an Error named AbortError into TimeoutError carrying the
configured timeout, and wrap everything else as NetworkError, keeping the
cause exactly when the thrown value is an Error. -/
def classifyCaught (timeoutMs : Int) : CaughtError → EmotionAnalyzerError
  | .analyzer e => e
  | .jsError name msg isTE =>
    if name = "AbortError" then .timeout timeoutMs
    else if isTE then
      .network "Failed to connect to the API. Please check your network connection."
        (some (name, msg))
    else .network msg (some (name, msg))
  | .nonError => .network "An unexpected error occurred" none

/-- response.ok of fetch: status in the 2xx range. -/
def responseOk (status : Nat) : Bool := 200 ≤ status && status ≤ 299

/-- An HTTP response as request (client.ts) consumes it.  bodyTextRead is
none when reading the body as text fails (the code then uses the empty
string); parsedErrorBody is the outcome of parsing that text as JSON,
with none for a parse failure; jsonBody is the outcome of parsing the
body on the success path. -/
structure WireResponse (T : Type) where
  status : Nat
  retryAfterHeader : Option String
  bodyTextRead : Option String
  parsedErrorBody : Option WireErrorBody
  jsonBody : Except CaughtError T

/-- Outcome of the fetch call: a response, or a thrown value. -/
inductive FetchResult (T : Type) where
  | response (r : WireResponse T)
  | threw (e : CaughtError)

/-- JavaScript disjunction for an optional string on the left: the right
operand when the left is absent or the empty string (falsy), the left
value otherwise. -/
def jsOrElse (a : Option String) (b : String) : String :=
  match a with
  | none => b
  | some s => if s = "" then b else s

/-- The non-ok branch of request (client.ts): status 429 becomes
RateLimitError with the Retry-After header put through parseInt when
present and non-empty; any other status becomes ApiError whose message is
the first truthy of the parsed detail, message and error fields, with a
generic fallback, and which carries the status and the raw body text. -/
def handleErrorResponse (status : Nat) (retryAfterHeader : Option String)
    (bodyTextRead : Option String) (parsed : Option WireErrorBody) : EmotionAnalyzerError :=
  let responseText := bodyTextRead.getD ""
  if status = 429 then
    .rateLimit "Rate limit exceeded. Please wait before making more requests."
      (match retryAfterHeader with
       | none => .undef
       | some h => if h = "" then .undef else .num (jsParseInt h))
  else
    let fallback := "API request failed with status " ++ toString status
    let errorMessage :=
      match parsed with
      | none => fallback
      | some b => jsOrElse b.detail (jsOrElse b.message (jsOrElse b.error fallback))
    .api errorMessage status responseText

/-- request (client.ts) applied to the transport outcome: a 2xx response
yields the parsed JSON body, a non-2xx response goes through
handleErrorResponse, and everything thrown is classified by the catch
block. -/
def request {T : Type} (timeoutMs : Int) : FetchResult T → Except EmotionAnalyzerError T
  | .threw e => .error (classifyCaught timeoutMs e)
  | .response r =>
    if responseOk r.status then
      match r.jsonBody with
      | .ok v => .ok v
      | .error e => .error (classifyCaught timeoutMs e)
    else
      .error (classifyCaught timeoutMs
        (.analyzer (handleErrorResponse r.status r.retryAfterHeader r.bodyTextRead r.parsedErrorBody)))

/-- Options for the constructor: each field absent (undefined) or given. -/
structure EmotionAnalyzerOptions where
  baseUrl : Option String
  timeout : Option Int

/-- Whether a character list starts with the slash character. -/
def headIsSlash : List Char → Bool
  | '/' :: _ => true
  | _ => false

/-- The regex replace used by the constructor: remove one trailing slash
when there is one. -/
def stripTrailingSlash (s : String) : String :=
  if headIsSlash s.data.reverse then ⟨s.data.reverse.tail.reverse⟩ else s

/-- The immutable per-client configuration, the readonly fields baseUrl
and timeout of the EmotionAnalyzer class. -/
structure EmotionAnalyzer where
  baseUrl : String
  timeout : Int
deriving DecidableEq

/-- The EmotionAnalyzer constructor (client.ts): baseUrl falls back to
the default when absent or empty (falsy) and then loses at most one
trailing slash; timeout falls back to the default only when absent
(nullish coalescing), so zero and negative values are kept. -/
def mkEmotionAnalyzer (options : EmotionAnalyzerOptions) : EmotionAnalyzer :=
  let rawBase :=
    match options.baseUrl with
    | none => DEFAULT_BASE_URL
    | some s => if s = "" then DEFAULT_BASE_URL else s
  ⟨stripTrailingSlash rawBase, options.timeout.getD DEFAULT_TIMEOUT⟩

/-- Whether a string ends with the slash character. -/
def endsWithSlash (s : String) : Bool :=
  headIsSlash s.data.reverse

/-- Whether a string ends with two slash characters. -/
def endsWithDoubleSlash (s : String) : Bool :=
  headIsSlash s.data.reverse && headIsSlash s.data.reverse.tail

/-- The JSON payload of a single analysis request. -/
structure AnalyzePayload where
  text : String
deriving DecidableEq

/-- The JSON payload of a batch request. -/
structure BatchPayload where
  texts : List String
deriving DecidableEq

/-- Endpoint path of single analysis (client.ts). -/
def analyzeEndpoint : String := "/api/v1/analyze"

/-- Endpoint path of batch analysis (client.ts). -/
def batchEndpoint : String := "/api/v1/analyze/batch"

/-- Trimming an element of the batch array; after validation every
element is a string, so the non-string case is unreachable. -/
def jsValTrim : JSVal → String
  | .str s => jsTrim s
  | _ => ""

/-- analyze (client.ts): validate, send the trimmed text to the single
analysis endpoint, transform the result.  The transport oracle maps the
endpoint and payload the code sends to the outcome fetch would produce
for that request. -/
def analyze (timeoutMs : Int)
    (transport : String → AnalyzePayload → FetchResult ApiAnalyzeResponse)
    (text : String) : Except EmotionAnalyzerError EmotionResult :=
  match validateText (.str text) with
  | .error e => .error (.validation e.message e.field)
  | .ok () =>
    (request timeoutMs (transport analyzeEndpoint ⟨jsTrim text⟩)).map transformResponse

/-- analyzeBatch (client.ts): validate, send the element-wise trimmed
texts to the batch endpoint, transform each result and copy the wire
count through unchanged. -/
def analyzeBatch (timeoutMs : Int)
    (transport : String → BatchPayload → FetchResult ApiBatchResponse)
    (texts : BatchInput) : Except EmotionAnalyzerError BatchEmotionResult :=
  match validateBatchTexts texts with
  | .error e => .error (.validation e.message e.field)
  | .ok () =>
    let sent :=
      match texts with
      | .arr l => l.map jsValTrim
      | .notArray => []
    (request timeoutMs (transport batchEndpoint ⟨sent⟩)).map
      (fun r => ⟨r.results.map transformResponse, r.count⟩)

/-- A transport outcome fetch can actually produce: neither fetch itself
nor response.json ever throws one of the library's own errors. -/
def realisticFetch {T : Type} : FetchResult T → Prop
  | .threw (.analyzer _) => False
  | .threw _ => True
  | .response r =>
    match r.jsonBody with
    | .error (.analyzer _) => False
    | _ => True


/-- A list with no leading satisfied element keeps that property after
dropping satisfied elements from its tail. -/
lemma dropWhile_rdropWhile {α : Type} (p : α → Bool) (L : List α)
    (hL : L.dropWhile p = L) : (L.rdropWhile p).dropWhile p = L.rdropWhile p := by
  rcases h : L.rdropWhile p with _ | ⟨a, t⟩
  · rfl
  · obtain ⟨r, hr⟩ := h ▸ List.rdropWhile_prefix p L
    subst hr
    have ha : ¬ p a = true := by
      intro hpa
      simp only [List.cons_append] at hL
      rw [List.dropWhile_cons_of_pos hpa] at hL
      have hs : (t ++ r).dropWhile p <:+ t ++ r := List.dropWhile_suffix p
      rw [hL] at hs
      have hlen := hs.length_le
      simp only [List.length_cons] at hlen
      omega
    exact List.dropWhile_cons_of_neg ha

/-- jsTrimL written with rdropWhile. -/
lemma jsTrimL_eq_rdropWhile (cs : List Char) :
    jsTrimL cs = List.rdropWhile isJSWhitespace (cs.dropWhile isJSWhitespace) := rfl

/-- Trimming twice is the same as trimming once. -/
lemma jsTrimL_idem (cs : List Char) : jsTrimL (jsTrimL cs) = jsTrimL cs := by
  simp only [jsTrimL_eq_rdropWhile]
  rw [dropWhile_rdropWhile _ _ (List.dropWhile_idempotent _ _), List.rdropWhile_idempotent]

/-- The word count of the trimmed text equals the word count of the text
itself, because countWords trims its own argument. -/
lemma countWords_jsTrim (s : String) : countWords (jsTrim s) = countWords s := by
  unfold countWords
  rw [show (jsTrim (jsTrim s)).data = (jsTrim s).data from jsTrimL_idem s.data]

/-- A string has length zero exactly when it is the empty string. -/
lemma string_length_zero_iff (s : String) : s.length = 0 ↔ s = "" := by
  constructor
  · intro h
    have hd : s.data.length = 0 := h
    exact String.ext ((List.length_eq_zero.mp hd).trans rfl)
  · intro h
    subst h
    rfl

/-- Every failure of the per-element check carries field texts. -/
lemma validateBatchItem_field (i : Nat) (v : JSVal) (e : ValidationError)
    (h : validateBatchItem i v = .error e) : e.field = "texts" := by
  cases v with
  | nullish => injection h with h2; rw [← h2]
  | otherVal b => injection h with h2; rw [← h2]
  | str s =>
    simp only [validateBatchItem] at h
    split at h
    · injection h with h2; rw [← h2]
    · split at h
      · injection h with h2; rw [← h2]
      · split at h
        · injection h with h2; rw [← h2]
        · exact absurd h (by simp)

/-- Every failure message of the per-element check starts with the
element index. -/
lemma validateBatchItem_message (i : Nat) (v : JSVal) (e : ValidationError)
    (h : validateBatchItem i v = .error e) :
    ∃ tail, e.message = ("Text at index " ++ toString i ++ " ") ++ tail := by
  cases v with
  | nullish =>
    injection h with h2
    refine ⟨"is required and must be a string", ?_⟩
    rw [← h2]
    simp only [String.append_assoc]
    rw [show (" " : String) ++ "is required and must be a string" =
      " is required and must be a string" from rfl]
  | otherVal b =>
    injection h with h2
    refine ⟨"is required and must be a string", ?_⟩
    rw [← h2]
    simp only [String.append_assoc]
    rw [show (" " : String) ++ "is required and must be a string" =
      " is required and must be a string" from rfl]
  | str s =>
    simp only [validateBatchItem] at h
    split at h
    · injection h with h2
      refine ⟨"is required and must be a string", ?_⟩
      rw [← h2]
      simp only [String.append_assoc]
      rw [show (" " : String) ++ "is required and must be a string" =
        " is required and must be a string" from rfl]
    · split at h
      · injection h with h2
        refine ⟨"cannot be empty", ?_⟩
        rw [← h2]
        simp only [String.append_assoc]
        rw [show (" " : String) ++ "cannot be empty" = " cannot be empty" from rfl]
      · split at h
        · injection h with h2
          refine ⟨"exceeds maximum word limit. Got " ++ toString (countWords (jsTrim s)) ++
            " words, maximum is " ++ toString MAX_WORDS_PER_TEXT, ?_⟩
          rw [← h2]
          simp only [String.append_assoc]
          rw [show (" exceeds maximum word limit. Got " : String) =
            " " ++ "exceeds maximum word limit. Got " from rfl]
          simp only [String.append_assoc]
        · exact absurd h (by simp)

/-- The per-element check of the batch validator succeeds exactly when
the single-text validator does: both run the same checks and differ only
in their messages and field names. -/
lemma validateBatchItem_ok_iff (i : Nat) (v : JSVal) :
    validateBatchItem i v = .ok () ↔ validateText v = .ok () := by
  cases v with
  | nullish => simp [validateBatchItem, validateText]
  | otherVal b => simp [validateBatchItem, validateText]
  | str s =>
    by_cases h0 : s = "" <;> by_cases h1 : (jsTrim s).length = 0 <;>
      by_cases h2 : countWords (jsTrim s) > MAX_WORDS_PER_TEXT <;>
      simp [validateBatchItem, validateText, h0, h1, h2]

/-- Unfolding the forEach loop one step. -/
lemma validateEach_cons (k : Nat) (t : JSVal) (rest : List JSVal) :
    validateEach k (t :: rest) =
      match validateBatchItem k t with
      | .error e => .error e
      | .ok () => validateEach (k + 1) rest := rfl

/-- The loop succeeds exactly when every element passes its check. -/
lemma validateEach_ok_iff (l : List JSVal) (k : Nat) :
    validateEach k l = .ok () ↔
      ∀ j, ∀ hj : j < l.length, validateBatchItem (k + j) (l.get ⟨j, hj⟩) = .ok () := by
  induction l generalizing k with
  | nil => simp [validateEach]
  | cons t rest ih =>
    cases hval : validateBatchItem k t with
    | error e0 =>
      have hstep : validateEach k (t :: rest) = .error e0 := by
        rw [validateEach_cons, hval]
      rw [hstep]
      constructor
      · intro h
        exact absurd h (by simp)
      · intro hall
        have h0 : validateBatchItem k t = Except.ok () := hall 0 (by simp)
        rw [hval] at h0
        exact h0
    | ok u =>
      cases u
      have hstep : validateEach k (t :: rest) = validateEach (k + 1) rest := by
        rw [validateEach_cons, hval]
      rw [hstep, ih]
      constructor
      · intro h j hj
        cases j with
        | zero => simpa using hval
        | succ j2 =>
          have hj2 : j2 < rest.length := by simpa using hj
          have h3 := h j2 hj2
          simpa [show k + (j2 + 1) = k + 1 + j2 from by omega] using h3
      · intro hall j hj
        have h3 := hall (j + 1) (by simpa using Nat.succ_lt_succ hj)
        simpa [show k + (j + 1) = k + 1 + j from by omega] using h3

/-- The loop fails exactly on the first failing element: there is a
decomposition of the list with every earlier element passing, the
failing element producing exactly the reported error, and the reported
index being the failing position. -/
lemma validateEach_error_iff (l : List JSVal) (k : Nat) (e : ValidationError) :
    validateEach k l = .error e ↔
      ∃ pre v post, l = pre ++ v :: post ∧
        (∀ j, ∀ hj : j < pre.length, validateBatchItem (k + j) (pre.get ⟨j, hj⟩) = .ok ()) ∧
        validateBatchItem (k + pre.length) v = .error e := by
  induction l generalizing k with
  | nil =>
    constructor
    · intro h
      exact absurd h (by simp [validateEach])
    · rintro ⟨pre, v, post, hdec, -, -⟩
      exact absurd hdec (by simp)
  | cons t rest ih =>
    cases hval : validateBatchItem k t with
    | error e0 =>
      have hstep : validateEach k (t :: rest) = .error e0 := by
        rw [validateEach_cons, hval]
      rw [hstep]
      constructor
      · intro h
        injection h with h2
        refine ⟨[], t, rest, rfl, ?_, ?_⟩
        · intro j hj
          exact absurd hj (by simp)
        · rw [List.length_nil, Nat.add_zero, hval, h2]
      · rintro ⟨pre, v, post, hdec, hall, herr⟩
        cases pre with
        | nil =>
          simp only [List.nil_append] at hdec
          injection hdec with hv hrest
          rw [← hv] at herr
          rw [List.length_nil, Nat.add_zero, hval] at herr
          injection herr with h2
          rw [h2]
        | cons p ps =>
          injection hdec with hp hrest
          have h0 : validateBatchItem k p = Except.ok () := hall 0 (by simp)
          rw [← hp, hval] at h0
          exact absurd h0 (by simp)
    | ok u =>
      cases u
      have hstep : validateEach k (t :: rest) = validateEach (k + 1) rest := by
        rw [validateEach_cons, hval]
      rw [hstep, ih]
      constructor
      · rintro ⟨pre, v, post, hdec, hall, herr⟩
        refine ⟨t :: pre, v, post, by rw [hdec]; rfl, ?_, ?_⟩
        · intro j hj
          cases j with
          | zero => simpa using hval
          | succ j2 =>
            have hj2 : j2 < pre.length := by simpa using hj
            have h3 := hall j2 hj2
            simpa [show k + (j2 + 1) = k + 1 + j2 from by omega] using h3
        · simpa [show k + (pre.length + 1) = k + 1 + pre.length from by omega] using herr
      · rintro ⟨pre, v, post, hdec, hall, herr⟩
        cases pre with
        | nil =>
          simp only [List.nil_append] at hdec
          injection hdec with hv hrest
          rw [← hv, List.length_nil, Nat.add_zero, hval] at herr
          exact absurd herr (by simp)
        | cons p ps =>
          injection hdec with hp hrest
          refine ⟨ps, v, post, hrest, ?_, ?_⟩
          · intro j hj
            have h3 := hall (j + 1) (by simpa using Nat.succ_lt_succ hj)
            simpa [show k + (j + 1) = k + 1 + j from by omega] using h3
          · simpa [show k + (ps.length + 1) = k + 1 + ps.length from by omega] using herr

/-- Every failure of the loop carries field texts. -/
lemma validateEach_error_field (l : List JSVal) (k : Nat) (e : ValidationError)
    (h : validateEach k l = .error e) : e.field = "texts" := by
  obtain ⟨pre, v, post, -, -, herr⟩ := (validateEach_error_iff l k e).mp h
  exact validateBatchItem_field _ _ _ herr

/-- Every failure of validateBatchTexts carries field texts. -/
lemma validateBatchTexts_error_field (input : BatchInput) (e : ValidationError)
    (h : validateBatchTexts input = .error e) : e.field = "texts" := by
  cases input with
  | notArray => injection h with h2; rw [← h2]
  | arr texts =>
    simp only [validateBatchTexts] at h
    split at h
    · injection h with h2; rw [← h2]
    · split at h
      · injection h with h2; rw [← h2]
      · exact validateEach_error_field _ _ _ h

/-- The non-429 error branch never produces a ValidationError. -/
lemma handleErrorResponse_not_validation (status : Nat) (ra : Option String)
    (bt : Option String) (pb : Option WireErrorBody) (m f : String) :
    handleErrorResponse status ra bt pb ≠ .validation m f := by
  unfold handleErrorResponse
  split
  · exact fun h => EmotionAnalyzerError.noConfusion h
  · exact fun h => EmotionAnalyzerError.noConfusion h

/-- The catch block never produces a ValidationError from a thrown value
that is not one of the library errors. -/
lemma classifyCaught_not_validation (t : Int) (e : CaughtError)
    (hne : ∀ e2, e ≠ .analyzer e2) (m f : String) :
    classifyCaught t e ≠ .validation m f := by
  intro h
  cases e with
  | analyzer e2 => exact absurd rfl (hne e2)
  | jsError name msg isTE =>
    simp only [classifyCaught] at h
    split at h
    · exact EmotionAnalyzerError.noConfusion h
    · split at h
      · exact EmotionAnalyzerError.noConfusion h
      · exact EmotionAnalyzerError.noConfusion h
  | nonError =>
    simp only [classifyCaught] at h
    exact EmotionAnalyzerError.noConfusion h

/-- On a realistic transport outcome the request pipeline never fails
with a ValidationError. -/
lemma request_no_validation {T : Type} (t : Int) (fr : FetchResult T)
    (hreal : realisticFetch fr) (m f : String) :
    request t fr ≠ .error (.validation m f) := by
  intro h
  cases fr with
  | threw e =>
    simp only [request] at h
    injection h with h2
    cases e with
    | analyzer e2 => exact hreal
    | jsError name msg isTE =>
      exact classifyCaught_not_validation t _ (fun _ h3 => CaughtError.noConfusion h3) m f h2
    | nonError =>
      exact classifyCaught_not_validation t _ (fun _ h3 => CaughtError.noConfusion h3) m f h2
  | response r =>
    simp only [request] at h
    split at h
    · cases hjb : r.jsonBody with
      | ok v =>
        rw [hjb] at h
        exact Except.noConfusion h
      | error e2 =>
        rw [hjb] at h
        injection h with h2
        cases e2 with
        | analyzer e3 =>
          simp only [realisticFetch, hjb] at hreal
        | jsError n ms te =>
          exact classifyCaught_not_validation t _ (fun _ h3 => CaughtError.noConfusion h3) m f h2
        | nonError =>
          exact classifyCaught_not_validation t _ (fun _ h3 => CaughtError.noConfusion h3) m f h2
    · injection h with h2
      exact handleErrorResponse_not_validation _ _ _ _ m f h2

/-- A mapped Except that is an error comes from the same error. -/
lemma except_map_error {α β ε : Type} (g : α → β) (x : Except ε α) (e : ε)
    (h : x.map g = .error e) : x = .error e := by
  cases x with
  | ok v =>
    simp only [Except.map] at h
    exact Except.noConfusion h
  | error e2 =>
    simp only [Except.map] at h
    injection h with h2
    rw [h2]

/-- C4: single-text validation fails with ValidationError carrying field
text exactly when the input is not a string (null and undefined
included), is the empty string or trims to empty, or has word count over
the 100-word maximum, where the word count is the number of non-empty
tokens of the trimmed text split on runs of whitespace (countWords); the
over-limit message carries both the actual count and the maximum 100;
every other string passes. -/
theorem validateText_spec :
    (∀ v e, validateText v = .error e → e.field = "text") ∧
    (∀ s, countWords (jsTrim s) = countWords s) ∧
    (∀ v, validateText v = .ok () ↔
      ∃ s, v = .str s ∧ jsTrim s ≠ "" ∧ countWords s ≤ MAX_WORDS_PER_TEXT) ∧
    (∀ s, jsTrim s ≠ "" → countWords s > MAX_WORDS_PER_TEXT →
      validateText (.str s) = .error
        ⟨"Text exceeds maximum word limit. Got " ++ toString (countWords s) ++
          " words, maximum is 100", "text"⟩) := by
  refine ⟨?_, countWords_jsTrim, ?_, ?_⟩
  · intro v e h
    cases v with
    | nullish => injection h with h2; rw [← h2]
    | otherVal b => injection h with h2; rw [← h2]
    | str s =>
      simp only [validateText] at h
      split at h
      · injection h with h2; rw [← h2]
      · split at h
        · injection h with h2; rw [← h2]
        · split at h
          · injection h with h2; rw [← h2]
          · exact absurd h (by simp)
  · intro v
    cases v with
    | nullish => simp [validateText]
    | otherVal b => simp [validateText]
    | str s =>
      constructor
      · intro h
        simp only [validateText] at h
        split at h
        · exact absurd h (by simp)
        · split at h
          · exact absurd h (by simp)
          · split at h
            · exact absurd h (by simp)
            · rename_i h0 h1 h2
              refine ⟨s, rfl, ?_, ?_⟩
              · intro hcon
                exact h1 (by rw [hcon]; rfl)
              · rw [← countWords_jsTrim s]
                omega
      · rintro ⟨s2, hs2, hne, hle⟩
        injection hs2 with hss
        subst hss
        have h0 : ¬ s = "" := by
          intro h
          subst h
          exact hne rfl
        have h1 : ¬ (jsTrim s).length = 0 := by
          intro h
          exact hne ((string_length_zero_iff _).mp h)
        have h2 : ¬ countWords (jsTrim s) > MAX_WORDS_PER_TEXT := by
          rw [countWords_jsTrim]
          omega
        simp [validateText, h0, h1, h2]
  · intro s hne hgt
    have h0 : ¬ s = "" := by
      intro h
      subst h
      exact hne rfl
    have h1 : ¬ (jsTrim s).length = 0 := by
      intro h
      exact hne ((string_length_zero_iff _).mp h)
    have h2 : countWords (jsTrim s) > MAX_WORDS_PER_TEXT := by
      rw [countWords_jsTrim]
      exact hgt
    simp only [validateText, if_neg h0, if_neg h1, if_pos h2]
    rw [countWords_jsTrim]
    rw [String.append_assoc]
    rw [show (" words, maximum is " : String) ++ toString MAX_WORDS_PER_TEXT =
      " words, maximum is 100" from rfl]

/-- Witness for C4 at concrete inputs. -/
theorem validateText_spec_witness :
    jsTrim "  good vibes  " ≠ "" ∧ countWords "  good vibes  " ≤ MAX_WORDS_PER_TEXT ∧
    validateText (.str "  good vibes  ") = .ok () :=
  ⟨by decide, by decide,
    (validateText_spec.2.2.1 (.str "  good vibes  ")).mpr
      ⟨"  good vibes  ", rfl, by decide, by decide⟩⟩

/-- C3: batch validation fails with field texts when the input is not an
array, is empty, or has more than 10 elements; otherwise it runs the
single-text checks on each element in order (the per-element check
succeeds exactly when validateText does), stops at the first failing
element, reports exactly that element's error, and the error message
starts with the element's zero-based index. -/
theorem validateBatchTexts_spec :
    (validateBatchTexts .notArray = .error ⟨"Texts must be an array", "texts"⟩) ∧
    (validateBatchTexts (.arr []) = .error ⟨"At least one text is required", "texts"⟩) ∧
    (∀ l : List JSVal, l.length > MAX_BATCH_SIZE →
      validateBatchTexts (.arr l) = .error
        ⟨"Batch size exceeds maximum limit. Got " ++ toString l.length ++
          " texts, maximum is 10", "texts"⟩) ∧
    (∀ i v, validateBatchItem i v = .ok () ↔ validateText v = .ok ()) ∧
    (∀ i v e, validateBatchItem i v = .error e →
      ∃ tail, e.message = ("Text at index " ++ toString i ++ " ") ++ tail) ∧
    (∀ l : List JSVal, ∀ e, l ≠ [] → l.length ≤ MAX_BATCH_SIZE →
      (validateBatchTexts (.arr l) = .error e ↔
        ∃ pre v post, l = pre ++ v :: post ∧
          (∀ j, ∀ hj : j < pre.length, validateBatchItem j (pre.get ⟨j, hj⟩) = .ok ()) ∧
          validateBatchItem pre.length v = .error e)) := by
  refine ⟨rfl, rfl, ?_, validateBatchItem_ok_iff, validateBatchItem_message, ?_⟩
  · intro l hlen
    have h0 : ¬ l.length = 0 := by omega
    simp only [validateBatchTexts, if_neg h0, if_pos hlen]
    rw [String.append_assoc]
    rw [show (" texts, maximum is " : String) ++ toString MAX_BATCH_SIZE =
      " texts, maximum is 10" from rfl]
  · intro l e hne hle
    have h0 : ¬ l.length = 0 := by
      intro h
      exact hne (List.length_eq_zero.mp h)
    have h1 : ¬ l.length > MAX_BATCH_SIZE := by omega
    simp only [validateBatchTexts, if_neg h0, if_neg h1]
    have h2 := validateEach_error_iff l 0 e
    simpa using h2

/-- Witness for C3: the spec example with the empty text at index 1. -/
theorem validateBatchTexts_spec_witness :
    (([JSVal.str "ok", JSVal.str "", JSVal.str "ok"] : List JSVal) ≠ [] ∧
      ([JSVal.str "ok", JSVal.str "", JSVal.str "ok"] : List JSVal).length ≤ MAX_BATCH_SIZE) ∧
    ∃ pre v post,
      ([JSVal.str "ok", JSVal.str "", JSVal.str "ok"] : List JSVal) = pre ++ v :: post ∧
        (∀ j, ∀ hj : j < pre.length, validateBatchItem j (pre.get ⟨j, hj⟩) = .ok ()) ∧
        validateBatchItem pre.length v =
          .error ⟨"Text at index 1 is required and must be a string", "texts"⟩ :=
  ⟨⟨by decide, by decide⟩,
    (validateBatchTexts_spec.2.2.2.2.2 [.str "ok", .str "", .str "ok"]
      ⟨"Text at index 1 is required and must be a string", "texts"⟩
      (by decide) (by decide)).mp rfl⟩

/-- C9: every ValidationError raised by batch validation carries field
texts, and no failure surfaced by analyzeBatch over a realistic transport
ever is a ValidationError with field text. -/
theorem analyzeBatch_field_texts :
    (∀ input e, validateBatchTexts input = .error e → e.field = "texts") ∧
    (∀ t transport texts err, (∀ ep p, realisticFetch (transport ep p)) →
      analyzeBatch t transport texts = .error err →
      ∀ m f, err = .validation m f → f = "texts") := by
  refine ⟨validateBatchTexts_error_field, ?_⟩
  intro t transport texts err hreal herr m f heq
  subst heq
  unfold analyzeBatch at herr
  cases hval : validateBatchTexts texts with
  | error e =>
    rw [hval] at herr
    injection herr with h2
    injection h2 with hm hf
    rw [← hf]
    exact validateBatchTexts_error_field texts e hval
  | ok u =>
    cases u
    rw [hval] at herr
    have hx := except_map_error _ _ _ herr
    exact absurd hx (request_no_validation t _ (hreal _ _) m f)

/-- Witness for C9: an empty batch over a transport that throws a
non-Error value. -/
theorem analyzeBatch_field_texts_witness :
    analyzeBatch 30000 (fun _ _ => .threw .nonError) (.arr []) =
      .error (.validation "At least one text is required" "texts") ∧
    ("texts" : String) = "texts" :=
  ⟨rfl, analyzeBatch_field_texts.2 30000 (fun _ _ => .threw .nonError) (.arr [])
    (.validation "At least one text is required" "texts")
    (fun _ _ => trivial) rfl "At least one text is required" "texts" rfl⟩

/-- Unfolding request on a non-2xx response: the error produced by
handleErrorResponse is thrown, caught, recognised as a library error and
rethrown unchanged. -/
lemma request_response_not_ok {T : Type} (t : Int) (r : WireResponse T)
    (hok : responseOk r.status = false) :
    request t (.response r) =
      .error (handleErrorResponse r.status r.retryAfterHeader r.bodyTextRead r.parsedErrorBody) := by
  simp [request, hok, classifyCaught]

/-- Unfolding request on a 2xx response whose body parses. -/
lemma request_response_ok {T : Type} (t : Int) (r : WireResponse T) (v : T)
    (hok : responseOk r.status = true) (hjb : r.jsonBody = .ok v) :
    request t (.response r) = .ok v := by
  simp [request, hok, hjb]

/-- Unfolding analyze once validation has passed. -/
lemma analyze_validated (t : Int)
    (tr : String → AnalyzePayload → FetchResult ApiAnalyzeResponse) (s : String)
    (hv : validateText (.str s) = .ok ()) :
    analyze t tr s = (request t (tr analyzeEndpoint ⟨jsTrim s⟩)).map transformResponse := by
  unfold analyze
  rw [hv]

/-- Unfolding analyzeBatch once validation has passed. -/
lemma analyzeBatch_validated (t : Int)
    (tr : String → BatchPayload → FetchResult ApiBatchResponse) (l : List JSVal)
    (hv : validateBatchTexts (.arr l) = .ok ()) :
    analyzeBatch t tr (.arr l) =
      (request t (tr batchEndpoint ⟨l.map jsValTrim⟩)).map
        (fun r => ⟨r.results.map transformResponse, r.count⟩) := by
  unfold analyzeBatch
  rw [hv]

/-- C6: a library error thrown inside the pipeline is rethrown unchanged;
an Error named AbortError becomes TimeoutError carrying the configured
timeout; every other thrown value becomes NetworkError, keeping the
underlying cause exactly when the thrown value is an Error. -/
theorem request_error_classification (T : Type) (t : Int) :
    (∀ e : EmotionAnalyzerError,
      request t ((FetchResult.threw (.analyzer e)) : FetchResult T) = .error e) ∧
    (∀ name msg isTE, name = "AbortError" →
      request t ((FetchResult.threw (.jsError name msg isTE)) : FetchResult T) =
        .error (.timeout t)) ∧
    (∀ name msg isTE, name ≠ "AbortError" →
      ∃ m, request t ((FetchResult.threw (.jsError name msg isTE)) : FetchResult T) =
        .error (.network m (some (name, msg)))) ∧
    (request t ((FetchResult.threw .nonError) : FetchResult T) =
      .error (.network "An unexpected error occurred" none)) := by
  refine ⟨fun e => rfl, ?_, ?_, rfl⟩
  · intro name msg isTE hab
    subst hab
    simp [request, classifyCaught]
  · intro name msg isTE hab
    by_cases hte : isTE = true
    · exact ⟨"Failed to connect to the API. Please check your network connection.",
        by simp [request, classifyCaught, hab, hte]⟩
    · exact ⟨msg, by simp [request, classifyCaught, hab, hte]⟩

/-- Witness for C6: an AbortError with the configured timeout of 50. -/
theorem request_error_classification_witness :
    ("AbortError" : String) = "AbortError" ∧
    request 50 ((FetchResult.threw (.jsError "AbortError" "signal is aborted" false)) :
        FetchResult ApiAnalyzeResponse) = .error (.timeout 50) :=
  ⟨rfl, (request_error_classification ApiAnalyzeResponse 50).2.1
    "AbortError" "signal is aborted" false rfl⟩

/-- C2 amended: every 429 response fails with RateLimitError carrying the
fixed message; retryAfter is undefined exactly when the Retry-After
header is absent or empty, and otherwise it is the parseInt value of the
header, which is NaN rather than absent when the header has no leading
integer. -/
theorem request_rateLimit_spec (T : Type) (t : Int) (raHdr bt : Option String)
    (pb : Option WireErrorBody) (jb : Except CaughtError T) :
    ∃ ra, request t (.response ⟨429, raHdr, bt, pb, jb⟩) =
        .error (.rateLimit "Rate limit exceeded. Please wait before making more requests." ra) ∧
      (ra = .undef ↔ (raHdr = none ∨ raHdr = some "")) ∧
      (∀ s, raHdr = some s → s ≠ "" → ra = .num (jsParseInt s)) := by
  refine ⟨(match raHdr with
    | none => .undef
    | some h => if h = "" then .undef else .num (jsParseInt h)), ?_, ?_, ?_⟩
  · rw [request_response_not_ok t ⟨429, raHdr, bt, pb, jb⟩ rfl]
    rfl
  · cases raHdr with
    | none => simp
    | some s =>
      by_cases hs : s = ""
      · subst hs
        simp
      · simp [hs]
  · intro s hs hsne
    subst hs
    simp [hsne]

/-- Witness for C2 with a numeric header value of 5. -/
theorem request_rateLimit_spec_witness :
    ∃ ra, request 30000 ((FetchResult.response ⟨429, some "5", some "", none,
          Except.error CaughtError.nonError⟩) : FetchResult ApiBatchResponse) =
        .error (.rateLimit "Rate limit exceeded. Please wait before making more requests." ra) ∧
      (ra = .undef ↔ ((some "5" : Option String) = none ∨ (some "5" : Option String) = some "")) ∧
      (∀ s, (some "5" : Option String) = some s → s ≠ "" → ra = .num (jsParseInt s)) :=
  request_rateLimit_spec ApiBatchResponse 30000 (some "5") (some "") none (.error .nonError)

/-- C2 counterexample: with Retry-After header "abc" the code attaches
retryAfter NaN (parseInt of a non-numeric string), while the claim says
the field is absent. -/
theorem request_rateLimit_claim_counterexample :
    request 30000 ((FetchResult.response ⟨429, some "abc", some "", none,
        Except.error CaughtError.nonError⟩) : FetchResult ApiAnalyzeResponse) =
      .error (.rateLimit "Rate limit exceeded. Please wait before making more requests."
        (.num .nan)) ∧
    RetryAfterValue.num .nan ≠ RetryAfterValue.undef :=
  ⟨rfl, by decide⟩

/-- C5 amended: every non-2xx, non-429 response fails with an ApiError
carrying the status code and the raw body text (empty when reading the
body failed); its message is the first non-empty (truthy) of the parsed
detail, message and error fields in that order, and the generic fallback
is used when the body did not parse or all three fields are absent or
empty — a present but empty field is skipped rather than used. -/
theorem request_apiError_spec (T : Type) (t : Int) (status : Nat)
    (raHdr bt : Option String) (pb : Option WireErrorBody) (jb : Except CaughtError T)
    (hok : responseOk status = false) (h429 : status ≠ 429) :
    ∃ m, request t (.response ⟨status, raHdr, bt, pb, jb⟩) =
        .error (.api m status (bt.getD "")) ∧
      (pb = none → m = "API request failed with status " ++ toString status) ∧
      (∀ b, pb = some b →
        ((∀ d, b.detail = some d → d ≠ "" → m = d) ∧
         ((b.detail = none ∨ b.detail = some "") →
            ∀ s2, b.message = some s2 → s2 ≠ "" → m = s2) ∧
         ((b.detail = none ∨ b.detail = some "") → (b.message = none ∨ b.message = some "") →
            ∀ s3, b.error = some s3 → s3 ≠ "" → m = s3) ∧
         ((b.detail = none ∨ b.detail = some "") → (b.message = none ∨ b.message = some "") →
          (b.error = none ∨ b.error = some "") →
            m = "API request failed with status " ++ toString status))) := by
  refine ⟨(match pb with
    | none => "API request failed with status " ++ toString status
    | some b => jsOrElse b.detail (jsOrElse b.message
        (jsOrElse b.error ("API request failed with status " ++ toString status)))), ?_, ?_, ?_⟩
  · rw [request_response_not_ok t ⟨status, raHdr, bt, pb, jb⟩ hok]
    simp only [handleErrorResponse, if_neg h429]
  · intro hpb
    subst hpb
    rfl
  · intro b hpb
    subst hpb
    dsimp only
    refine ⟨?_, ?_, ?_, ?_⟩
    · intro d hd hdne
      rw [hd]
      simp [jsOrElse, hdne]
    · intro hdet s2 hm hs2ne
      rcases hdet with h | h <;> rw [h, hm] <;> simp [jsOrElse, hs2ne]
    · intro hdet hmes s3 he hs3ne
      rcases hdet with h | h <;> rcases hmes with h2 | h2 <;>
        rw [h, h2, he] <;> simp [jsOrElse, hs3ne]
    · intro hdet hmes herr2
      rcases hdet with h | h <;> rcases hmes with h2 | h2 <;>
        rcases herr2 with h3 | h3 <;> rw [h, h2, h3] <;> simp [jsOrElse]

/-- Witness for C5: the spec example, HTTP 500 with detail "boom". -/
theorem request_apiError_spec_witness :
    responseOk 500 = false ∧ ((500 : Nat) ≠ 429) ∧
    request 30000 ((FetchResult.response ⟨500, none,
        some "\x7b\"detail\":\"boom\"\x7d", some ⟨some "boom", none, none⟩,
        Except.error CaughtError.nonError⟩) : FetchResult ApiBatchResponse) =
      .error (.api "boom" 500 "\x7b\"detail\":\"boom\"\x7d") := by
  refine ⟨by decide, by decide, ?_⟩
  obtain ⟨m, hm, -, hsome⟩ := request_apiError_spec ApiBatchResponse 30000 500 none
    (some "\x7b\"detail\":\"boom\"\x7d") (some ⟨some "boom", none, none⟩)
    (.error .nonError) (by decide) (by decide)
  have hb := (hsome ⟨some "boom", none, none⟩ rfl).1 "boom" rfl (by decide)
  rw [hb] at hm
  exact hm

/-- C5 counterexample: with body fields detail present but empty and
message "m", the code reports "m", while the claim's priority order over
present fields requires the empty detail value. -/
theorem request_apiError_claim_counterexample :
    request 30000 ((FetchResult.response ⟨500, none,
        some "\x7b\"detail\":\"\",\"message\":\"m\"\x7d",
        some ⟨some "", some "m", none⟩,
        Except.error CaughtError.nonError⟩) : FetchResult ApiAnalyzeResponse) =
      .error (.api "m" 500 "\x7b\"detail\":\"\",\"message\":\"m\"\x7d") ∧
    (⟨some "", some "m", none⟩ : WireErrorBody).detail = some "" ∧
    ("m" : String) ≠ "" :=
  ⟨rfl, rfl, by decide⟩

/-- C7: for a text that passes validation, analyze consults the transport
only at the single-analysis endpoint with payload text equal to the input
trimmed of surrounding whitespace, and on a 2xx response whose body
parses it resolves to the field-for-field renaming of the wire response,
with the all_emotions items unchanged. -/
theorem analyze_spec (t : Int) (s : String)
    (hv : validateText (.str s) = .ok ()) :
    (∀ tr1 tr2, tr1 analyzeEndpoint ⟨jsTrim s⟩ = tr2 analyzeEndpoint ⟨jsTrim s⟩ →
      analyze t tr1 s = analyze t tr2 s) ∧
    (∀ tr (r : WireResponse ApiAnalyzeResponse) (w : ApiAnalyzeResponse),
      tr analyzeEndpoint ⟨jsTrim s⟩ = .response r →
      responseOk r.status = true → r.jsonBody = .ok w →
      analyze t tr s = .ok ⟨w.primary_emotion, w.confidence, w.all_emotions⟩) := by
  constructor
  · intro tr1 tr2 heq
    rw [analyze_validated t tr1 s hv, analyze_validated t tr2 s hv, heq]
  · intro tr r w hr hok hjb
    rw [analyze_validated t tr s hv, hr, request_response_ok t r w hok hjb]
    rfl

/-- Witness for C7: the spec example response for a validated text. -/
theorem analyze_spec_witness :
    validateText (.str " happy days ") = .ok () ∧
    analyze 30000 (fun _ _ => .response ⟨200, none, none, none,
        .ok ⟨"joy", 0.9, [⟨"joy", 0.9⟩]⟩⟩) " happy days " =
      .ok ⟨"joy", 0.9, [⟨"joy", 0.9⟩]⟩ :=
  ⟨rfl, (analyze_spec 30000 " happy days " rfl).2
    (fun _ _ => .response ⟨200, none, none, none, .ok ⟨"joy", 0.9, [⟨"joy", 0.9⟩]⟩⟩)
    ⟨200, none, none, none, .ok ⟨"joy", 0.9, [⟨"joy", 0.9⟩]⟩⟩
    ⟨"joy", 0.9, [⟨"joy", 0.9⟩]⟩ rfl rfl rfl⟩

/-- C1 amended: on a successful batch call the returned results are the
transformed wire results and the returned count is the wire count copied
through unchanged, so count equals results.length exactly when the
server-sent count equals the length of the server-sent results. -/
theorem analyzeBatch_count_spec (t : Int)
    (tr : String → BatchPayload → FetchResult ApiBatchResponse)
    (l : List JSVal) (r : WireResponse ApiBatchResponse) (w : ApiBatchResponse)
    (hv : validateBatchTexts (.arr l) = .ok ())
    (hr : tr batchEndpoint ⟨l.map jsValTrim⟩ = .response r)
    (hok : responseOk r.status = true) (hjb : r.jsonBody = .ok w) :
    analyzeBatch t tr (.arr l) = .ok ⟨w.results.map transformResponse, w.count⟩ ∧
    (w.results.map transformResponse).length = w.results.length ∧
    (∀ b, analyzeBatch t tr (.arr l) = .ok b →
      ((b.count = (b.results.length : Int)) ↔ (w.count = (w.results.length : Int)))) := by
  have hmain : analyzeBatch t tr (.arr l) = .ok ⟨w.results.map transformResponse, w.count⟩ := by
    rw [analyzeBatch_validated t tr l hv, hr, request_response_ok t r w hok hjb]
    rfl
  refine ⟨hmain, by simp, ?_⟩
  intro b hb
  rw [hmain] at hb
  injection hb with hb2
  subst hb2
  simp

/-- Witness for C1 on a wire response whose count matches. -/
theorem analyzeBatch_count_spec_witness :
    validateBatchTexts (.arr [.str "ok"]) = .ok () ∧
    analyzeBatch 30000 (fun _ _ => .response ⟨200, none, none, none,
        .ok ⟨[⟨"joy", 1, [⟨"joy", 1⟩]⟩], 1⟩⟩) (.arr [.str "ok"]) =
      .ok ⟨[⟨"joy", 1, [⟨"joy", 1⟩]⟩], 1⟩ := by
  refine ⟨rfl, ?_⟩
  have h := analyzeBatch_count_spec 30000
    (fun _ _ => .response ⟨200, none, none, none, .ok ⟨[⟨"joy", 1, [⟨"joy", 1⟩]⟩], 1⟩⟩)
    [.str "ok"] ⟨200, none, none, none, .ok ⟨[⟨"joy", 1, [⟨"joy", 1⟩]⟩], 1⟩⟩
    ⟨[⟨"joy", 1, [⟨"joy", 1⟩]⟩], 1⟩ rfl rfl rfl rfl
  exact h.1

/-- C1 counterexample: the server replies with one result but count 2;
the returned BatchEmotionResult copies count 2, so count differs from
results.length. -/
theorem analyzeBatch_count_claim_counterexample :
    analyzeBatch 30000 (fun _ _ => .response ⟨200, none, none, none,
        .ok ⟨[⟨"joy", 1, [⟨"joy", 1⟩]⟩], 2⟩⟩) (.arr [.str "ok"]) =
      .ok ⟨[⟨"joy", 1, [⟨"joy", 1⟩]⟩], 2⟩ ∧
    ((⟨[⟨"joy", 1, [⟨"joy", 1⟩]⟩], 2⟩ : BatchEmotionResult).count ≠
      ((⟨[⟨"joy", 1, [⟨"joy", 1⟩]⟩], 2⟩ : BatchEmotionResult).results.length : Int)) :=
  ⟨rfl, by decide⟩

/-- The stored base URL still ends with a slash exactly when the input
ended with two slashes: only one trailing slash is removed. -/
lemma strip_slash_ends (s : String) :
    endsWithSlash (stripTrailingSlash s) = endsWithDoubleSlash s := by
  unfold endsWithSlash endsWithDoubleSlash stripTrailingSlash
  by_cases h : headIsSlash s.data.reverse = true
  · rw [if_pos h]
    rw [show (String.mk s.data.reverse.tail.reverse).data.reverse = s.data.reverse.tail from
      by simp]
    rw [h]
    simp
  · rw [if_neg h]
    have hf : headIsSlash s.data.reverse = false := by
      revert h
      cases headIsSlash s.data.reverse <;> simp
    rw [hf]
    simp

/-- C8 amended: for a truthy baseUrl option the stored base URL is the
input with at most one trailing slash removed, and it still ends with a
slash exactly when the input ended with two slashes; the configuration
fields are fixed at construction and the model has no mutating
operation. -/
theorem constructor_baseUrl_spec (s : String) (topt : Option Int) (hne : s ≠ "") :
    (mkEmotionAnalyzer ⟨some s, topt⟩).baseUrl = stripTrailingSlash s ∧
    endsWithSlash (stripTrailingSlash s) = endsWithDoubleSlash s := by
  constructor
  · simp [mkEmotionAnalyzer, hne]
  · exact strip_slash_ends s

/-- Witness for C8 at a URL with a single trailing slash. -/
theorem constructor_baseUrl_spec_witness :
    ("https://self.hosted/" : String) ≠ "" ∧
    (mkEmotionAnalyzer ⟨some "https://self.hosted/", none⟩).baseUrl =
      stripTrailingSlash "https://self.hosted/" ∧
    endsWithSlash (stripTrailingSlash "https://self.hosted/") =
      endsWithDoubleSlash "https://self.hosted/" := by
  have h := constructor_baseUrl_spec "https://self.hosted/" none (by decide)
  exact ⟨by decide, h.1, h.2⟩

/-- C8 counterexample: an input ending in two slashes keeps one, so the
stored base URL ends with a slash, which the claim rules out. -/
theorem constructor_baseUrl_claim_counterexample :
    (mkEmotionAnalyzer ⟨some "https://api.example.com//", none⟩).baseUrl =
      "https://api.example.com/" ∧
    endsWithSlash (mkEmotionAnalyzer ⟨some "https://api.example.com//", none⟩).baseUrl = true :=
  ⟨rfl, rfl⟩

/-- C10: the constructor replaces a falsy baseUrl (absent, or the empty
string, the only falsy string) by the default, keeps a timeout of zero
(nullish coalescing replaces only an absent timeout), and stores any
given timeout unchanged with no validation of non-positive values. -/
theorem constructor_defaults_spec :
    (∀ topt, (mkEmotionAnalyzer ⟨some "", topt⟩).baseUrl = DEFAULT_BASE_URL) ∧
    (∀ topt, (mkEmotionAnalyzer ⟨none, topt⟩).baseUrl = DEFAULT_BASE_URL) ∧
    (∀ b, (mkEmotionAnalyzer ⟨b, some 0⟩).timeout = 0) ∧
    (∀ b, (mkEmotionAnalyzer ⟨b, none⟩).timeout = DEFAULT_TIMEOUT) ∧
    ((0 : Int) ≠ DEFAULT_TIMEOUT) ∧
    (∀ b n, (mkEmotionAnalyzer ⟨b, some n⟩).timeout = n) := by
  refine ⟨fun topt => rfl, fun topt => rfl, fun b => rfl, fun b => rfl, by decide, fun b n => rfl⟩
